import Mathlib

/-!
Shallow embedding of `jack_keyboard` (src/main.rs): a keyboard-to-MIDI
bridge.  The UI thread tracks pressed scancodes in a set, suppresses
auto-repeat presses, maps scancodes to notes and sends `KeyboardMsg`
values over an mpsc channel; the JACK process callback drains the
channel and writes one 3-byte MIDI message per event.
-/

namespace JackKeyboard

/-- The `Note` enum of src/main.rs (13 chromatic notes, C4 through C5). -/
inductive Note
  | C4
  | CSharp4
  | D4
  | DSharp4
  | E4
  | F4
  | FSharp4
  | G4
  | GSharp4
  | A4
  | ASharp4
  | B4
  | C5
deriving DecidableEq

/-- Embeds `Note::from_scancode` of src/main.rs.  Scancodes are `u32` in winit;
modelled as `Nat`. -/
def Note.from_scancode (scancode : Nat) : Option Note :=
  match scancode with
  | 30 => some Note.C4
  | 31 => some Note.D4
  | 32 => some Note.E4
  | 33 => some Note.F4
  | 34 => some Note.G4
  | 35 => some Note.A4
  | 36 => some Note.B4
  | 37 => some Note.C5
  | 17 => some Note.CSharp4
  | 18 => some Note.DSharp4
  | 20 => some Note.FSharp4
  | 21 => some Note.GSharp4
  | 22 => some Note.ASharp4
  | _ => none

/-- Embeds `Note::to_midi_value` of src/main.rs (a `u8`; the values 60-72 fit,
modelled as `Nat`). -/
def Note.to_midi_value : Note → Nat
  | Note.C4 => 60
  | Note.CSharp4 => 61
  | Note.D4 => 62
  | Note.DSharp4 => 63
  | Note.E4 => 64
  | Note.F4 => 65
  | Note.FSharp4 => 66
  | Note.G4 => 67
  | Note.GSharp4 => 68
  | Note.A4 => 69
  | Note.ASharp4 => 70
  | Note.B4 => 71
  | Note.C5 => 72

/-- The `KeyboardMsg` struct of src/main.rs: the message crossing the
channel. -/
structure KeyboardMsg where
  note : Note
  pressed : Bool
deriving DecidableEq

/-- Embeds `winit::event::ElementState`: the two states carried by a keyboard
input event. -/
inductive ElementState
  | Pressed
  | Released
deriving DecidableEq

/-- The Rust comparison `state == ElementState::Pressed`. -/
def ElementState.isPressed : ElementState → Bool
  | ElementState.Pressed => true
  | ElementState.Released => false

/-- Embeds `winit::event::VirtualKeyCode`: the program only ever compares a
virtual keycode against `Escape`, so all other variants are collapsed
into `other`. -/
inductive VirtualKeyCode
  | Escape
  | other (n : Nat)
deriving DecidableEq

/-- The two `winit::event_loop::ControlFlow` values the program assigns. -/
inductive ControlFlow
  | Wait
  | Exit
deriving DecidableEq

/-- Embeds `jack::Control`, returned by the process callback. -/
inductive Control
  | Continue
  | Quit
deriving DecidableEq

/-- Embeds `jack::RawMidi`: a timestamp offset into the processing block and the
message bytes. -/
structure RawMidi where
  time : Nat
  bytes : List Nat
deriving DecidableEq

/-- The fields of `winit::event::KeyboardInput` read by the program. -/
structure KeyboardInput where
  scancode : Nat
  state : ElementState
  virtual_keycode : Option VirtualKeyCode
deriving DecidableEq

/-- The Key-State Tracker step: lines 89-105 of src/main.rs, the logic
that runs after the escape interception.  Returns the updated
`active_keys` set and the message handed to `tx.send` (if any). -/
def track_step (active_keys : Finset Nat) (scancode : Nat) (is_down : Bool) :
    Finset Nat × Option KeyboardMsg :=
  if is_down ∧ scancode ∈ active_keys then
    (active_keys, none)
  else
    let active_keys' :=
      if is_down then insert scancode active_keys else active_keys.erase scancode
    (active_keys',
      (Note.from_scancode scancode).map fun note =>
        { note := note, pressed := is_down })

/-- Result of one iteration of the `run_window` event-loop body on a
keyboard input event. -/
structure StepResult where
  active_keys : Finset Nat
  control_flow : ControlFlow
  sent : Option KeyboardMsg
deriving DecidableEq

/-- One iteration of the `run_window` closure (lines 83-106 of
src/main.rs) on a `KeyboardInput` event for the program window: escape
interception first, then the Key-State Tracker step. -/
def run_window_step (active_keys : Finset Nat) (input : KeyboardInput) :
    StepResult :=
  if input.virtual_keycode = some VirtualKeyCode.Escape then
    { active_keys := active_keys, control_flow := ControlFlow.Exit, sent := none }
  else
    let r := track_step active_keys input.scancode input.state.isPressed
    { active_keys := r.1, control_flow := ControlFlow.Wait, sent := r.2 }

/-- Folding the tracker over a whole observation sequence, keeping only
the final `active_keys` set. -/
def track_run (active_keys : Finset Nat) : List (Nat × Bool) → Finset Nat
  | [] => active_keys
  | o :: rest => track_run (track_step active_keys o.1 o.2).1 rest

/-- Folding the tracker over a whole observation sequence, collecting the
messages sent on the channel, in order. -/
def track_trace (active_keys : Finset Nat) : List (Nat × Bool) → List KeyboardMsg
  | [] => []
  | o :: rest =>
    let r := track_step active_keys o.1 o.2
    r.2.toList ++ track_trace r.1 rest

/-- The last observation of a given scancode in a sequence: `some true`
if it was a press, `some false` if a release, `none` if the code was
never observed. -/
def last_obs (code : Nat) : List (Nat × Bool) → Option Bool
  | [] => none
  | o :: rest =>
    match last_obs code rest with
    | some b => some b
    | none => if o.1 = code then some o.2 else none

/-- Embeds `std::sync::mpsc::Receiver::try_recv` on the channel modelled as a
FIFO list: take the oldest element, if any. -/
def try_take : List KeyboardMsg → Option (KeyboardMsg × List KeyboardMsg)
  | [] => none
  | m :: rest => some (m, rest)

/-- The error of `std::sync::mpsc::Sender::send`: the receiver is gone. -/
inductive SendError
  | disconnected
deriving DecidableEq

/-- Embeds `Sender::send` on the FIFO-list channel: appends when the receiver is
alive, fails otherwise. -/
def channel_send (connected : Bool) (q : List KeyboardMsg) (m : KeyboardMsg) :
    Except SendError (List KeyboardMsg) :=
  if connected then Except.ok (q ++ [m]) else Except.error SendError.disconnected

/-- Combines `run_window_step` together with the channel send and its `.unwrap()`
(line 104 of src/main.rs): a failed send panics, which aborts the
process; modelled as `Except.error`. -/
def run_window_step_sys (connected : Bool) (active_keys : Finset Nat)
    (q : List KeyboardMsg) (input : KeyboardInput) :
    Except SendError (Finset Nat × ControlFlow × List KeyboardMsg) :=
  let r := run_window_step active_keys input
  match r.sent with
  | none => Except.ok (r.active_keys, r.control_flow, q)
  | some m =>
    match channel_send connected q m with
    | Except.ok q' => Except.ok (r.active_keys, r.control_flow, q')
    | Except.error e => Except.error e

/-- Outcome of one `writer.write` inside the process callback: either the
message was written, or the error was printed with `eprintln` and the
loop continued (lines 48-51 of src/main.rs). -/
inductive WriteOutcome
  | written (m : RawMidi)
  | logged (m : RawMidi)
deriving DecidableEq

/-- The `RawMidi` message an outcome was produced from. -/
def WriteOutcome.raw : WriteOutcome → RawMidi
  | WriteOutcome.written m => m
  | WriteOutcome.logged m => m

/-- Whether the outcome is a logged failure. -/
def WriteOutcome.isLogged : WriteOutcome → Bool
  | WriteOutcome.written _ => false
  | WriteOutcome.logged _ => true

/-- The 3-byte MIDI message built at lines 43-47 of src/main.rs:
status `0x91` (note on) when pressed, `0x81` (note off) otherwise, the
note number, and the hardcoded velocity `0x70`. -/
def midi_bytes (msg : KeyboardMsg) : List Nat :=
  [if msg.pressed then 0x91 else 0x81, msg.note.to_midi_value, 0x70]

/-- The `while let Ok(msg) = rx.try_recv()` drain loop of the process
callback (lines 38-52 of src/main.rs).  `writeOk i` tells whether the
i-th `writer.write` succeeds; the queue is the channel contents. -/
def process_loop (writeOk : Nat → Bool) (i : Nat) (q : List KeyboardMsg) :
    List WriteOutcome :=
  match h : try_take q with
  | none => []
  | some (msg, rest) =>
    let raw : RawMidi := { time := 0, bytes := midi_bytes msg }
    let outcome :=
      if writeOk i then WriteOutcome.written raw else WriteOutcome.logged raw
    outcome :: process_loop writeOk (i + 1) rest
termination_by q.length
decreasing_by
  cases q with
  | nil => simp [try_take] at h
  | cons a t =>
    simp only [try_take, Option.some.injEq, Prod.mk.injEq] at h
    rw [h.2.symm]
    simp

/-- The whole process callback of `handle_jack` (lines 35-55 of
src/main.rs): drain the channel, write each message, return
`Control::Continue`. -/
def handle_jack_process (writeOk : Nat → Bool) (q : List KeyboardMsg) :
    List WriteOutcome × Control :=
  (process_loop writeOk 0 q, Control.Continue)

/-- Repeatedly draining the channel with `try_take` until it is empty,
collecting the events in the order they come out. -/
def drain (q : List KeyboardMsg) : List KeyboardMsg :=
  match h : try_take q with
  | none => []
  | some (m, rest) => m :: drain rest
termination_by q.length
decreasing_by
  cases q with
  | nil => simp [try_take] at h
  | cons a t =>
    simp only [try_take, Option.some.injEq, Prod.mk.injEq] at h
    rw [h.2.symm]
    simp

/-- Folding successful sends of a list of messages into the channel, in
production order. -/
def send_all (q : List KeyboardMsg) (msgs : List KeyboardMsg) : List KeyboardMsg :=
  msgs.foldl (fun acc m => acc ++ [m]) q

theorem process_loop_nil (writeOk : Nat → Bool) (i : Nat) :
    process_loop writeOk i [] = [] := by
  rw [process_loop]
  simp [try_take]

theorem process_loop_cons (writeOk : Nat → Bool) (i : Nat) (m : KeyboardMsg)
    (rest : List KeyboardMsg) :
    process_loop writeOk i (m :: rest) =
      (if writeOk i then WriteOutcome.written { time := 0, bytes := midi_bytes m }
       else WriteOutcome.logged { time := 0, bytes := midi_bytes m })
        :: process_loop writeOk (i + 1) rest := by
  rw [process_loop]
  simp [try_take]

theorem drain_nil : drain [] = [] := by
  rw [drain]
  simp [try_take]

theorem drain_cons (m : KeyboardMsg) (rest : List KeyboardMsg) :
    drain (m :: rest) = m :: drain rest := by
  rw [drain]
  simp [try_take]

theorem drain_eq_id (q : List KeyboardMsg) : drain q = q := by
  induction q with
  | nil => exact drain_nil
  | cons m rest ih => rw [drain_cons, ih]

theorem send_all_eq_append (msgs q : List KeyboardMsg) :
    send_all q msgs = q ++ msgs := by
  induction msgs generalizing q with
  | nil => simp [send_all]
  | cons m rest ih =>
    simp only [send_all, List.foldl_cons] at ih ⊢
    rw [ih]
    simp

theorem process_loop_length (writeOk : Nat → Bool) (q : List KeyboardMsg) :
    ∀ i, (process_loop writeOk i q).length = q.length := by
  induction q with
  | nil => intro i; rw [process_loop_nil]; rfl
  | cons m rest ih =>
    intro i
    rw [process_loop_cons]
    simp [ih]

theorem process_loop_get (writeOk : Nat → Bool) (q : List KeyboardMsg) :
    ∀ i j, (process_loop writeOk i q)[j]? =
      (q[j]?).map fun m =>
        if writeOk (i + j) then WriteOutcome.written { time := 0, bytes := midi_bytes m }
        else WriteOutcome.logged { time := 0, bytes := midi_bytes m } := by
  induction q with
  | nil => intro i j; rw [process_loop_nil]; simp
  | cons m rest ih =>
    intro i j
    rw [process_loop_cons]
    cases j with
    | zero => simp
    | succ k =>
      simp only [List.getElem?_cons_succ]
      rw [ih]
      have : i + (k + 1) = (i + 1) + k := by omega
      rw [this]

theorem process_loop_all_ok (q : List KeyboardMsg) :
    ∀ i, process_loop (fun _ => true) i q =
      q.map fun m => WriteOutcome.written { time := 0, bytes := midi_bytes m } := by
  induction q with
  | nil => intro i; rw [process_loop_nil]; rfl
  | cons m rest ih =>
    intro i
    rw [process_loop_cons]
    simp [ih]

theorem track_run_mem (code : Nat) (obs : List (Nat × Bool)) :
    ∀ active : Finset Nat,
      (code ∈ track_run active obs ↔
        match last_obs code obs with
        | some b => b = true
        | none => code ∈ active) := by
  induction obs with
  | nil => intro active; simp [track_run, last_obs]
  | cons o rest ih =>
    intro active
    rw [track_run, ih]
    cases hl : last_obs code rest with
    | some b => simp [last_obs, hl]
    | none =>
      simp only [last_obs, hl]
      by_cases hc : o.1 = code
      · subst hc
        cases hd : o.2 with
        | true =>
          by_cases hm : o.1 ∈ active
          · simp [track_step, hm]
          · simp [track_step, hm]
        | false =>
          simp [track_step]
      · cases hd : o.2 with
        | true =>
          by_cases hm : o.1 ∈ active
          · simp [track_step, hm, hc]
          · simp [track_step, hm, Finset.mem_insert, Ne.symm hc, hc]
        | false =>
          simp [track_step, Finset.mem_erase, Ne.symm hc, hc]

/-- Claim C1: pressing a key whose code is already in the Active-Key Set
is a no-op, however many repeat-down observations arrive in a row: the
set is unchanged and no message is sent on the channel. -/
theorem repeat_press_noop (active : Finset Nat) (code : Nat) (n : Nat)
    (h : code ∈ active) :
    track_run active (List.replicate n (code, true)) = active ∧
    track_trace active (List.replicate n (code, true)) = [] := by
  induction n with
  | zero => exact ⟨rfl, rfl⟩
  | succ k ih =>
    rw [List.replicate_succ, track_run, track_trace]
    have hstep : track_step active code true = (active, none) := by
      simp [track_step, h]
    rw [hstep] at *
    exact ⟨ih.1, by simpa using ih.2⟩

/-- Witness for C1 at a concrete member code and three repeat presses. -/
theorem repeat_press_noop_witness :
    (30 : Nat) ∈ ({30} : Finset Nat) ∧
    (track_run {30} (List.replicate 3 ((30 : Nat), true)) = {30} ∧
     track_trace {30} (List.replicate 3 ((30 : Nat), true)) = []) :=
  ⟨by decide, repeat_press_noop {30} 30 3 (by decide)⟩

/-- Claim C2: a release observation always removes the code from the
Active-Key Set (idempotently) and sends `{note, pressed := false}`
exactly when the Note Table maps the code, whatever the prior
membership. -/
theorem release_unconditional (active : Finset Nat) (code : Nat) :
    track_step active code false =
      (active.erase code,
       (Note.from_scancode code).map fun note =>
         { note := note, pressed := false }) := by
  simp [track_step]

/-- Claim C3: a press of a code not in the Active-Key Set inserts it and
sends `{note, pressed := true}` exactly when the Note Table maps the
code; an unmapped code still gets inserted but sends nothing. -/
theorem fresh_press_inserts (active : Finset Nat) (code : Nat)
    (h : code ∉ active) :
    track_step active code true =
      (insert code active,
       (Note.from_scancode code).map fun note =>
         { note := note, pressed := true }) := by
  simp [track_step, h]

/-- Witness for C3 at the unmapped scancode 99 on the empty set: the
code is inserted and no message is produced. -/
theorem fresh_press_inserts_witness :
    (99 : Nat) ∉ (∅ : Finset Nat) ∧
    track_step ∅ 99 true =
      (insert 99 ∅,
       (Note.from_scancode 99).map fun note =>
         { note := note, pressed := true }) :=
  ⟨by decide, fresh_press_inserts ∅ 99 (by decide)⟩

/-- Claim C4: sending every message the tracker produces into the
channel in production order and then draining with `try_take` until
empty returns exactly the production sequence (FIFO). -/
theorem channel_fifo (active : Finset Nat) (obs : List (Nat × Bool)) :
    drain (send_all [] (track_trace active obs)) = track_trace active obs := by
  rw [send_all_eq_append, List.nil_append, drain_eq_id]

/-- Claim C5: on a callback invocation with all writes succeeding, the
whole queue is drained and each event is written in receipt order as the
3-byte message with status 0x91 or 0x81, the note number from
`to_midi_value`, and a fixed velocity from the observed set, timestamped
at block offset 0. -/
theorem callback_writes_midi (q : List KeyboardMsg) :
    ∃ v, (v = 0x70 ∨ v = 0x7F) ∧
      handle_jack_process (fun _ => true) q =
        (q.map fun m =>
          WriteOutcome.written
            { time := 0,
              bytes := [if m.pressed then 0x91 else 0x81, m.note.to_midi_value, v] },
         Control.Continue) := by
  refine ⟨0x70, Or.inl rfl, ?_⟩
  rw [handle_jack_process, process_loop_all_ok]
  rfl

/-- Claim C6: starting from the empty Active-Key Set, a code is a member
after a sequence of tracker observations exactly when its last
observation was a press (a press with no matching release since). -/
theorem active_iff_held (obs : List (Nat × Bool)) (code : Nat) :
    code ∈ track_run ∅ obs ↔ last_obs code obs = some true := by
  rw [track_run_mem]
  cases hl : last_obs code obs with
  | none => simp
  | some b => simp

/-- Claim C7: when the channel send fails (receiver gone), a produced
event makes the producer path abort hard (the `.unwrap()` panic); the
event is never dropped with a successful continuation. -/
theorem send_failure_aborts (active : Finset Nat) (q : List KeyboardMsg)
    (input : KeyboardInput) (msg : KeyboardMsg)
    (h : (run_window_step active input).sent = some msg) :
    run_window_step_sys false active q input =
      Except.error SendError.disconnected := by
  rw [run_window_step_sys]
  simp only [h, channel_send, Bool.false_eq_true, if_false]

/-- Witness for C7: pressing the mapped scancode 30 with the receiver
gone aborts. -/
theorem send_failure_aborts_witness :
    (run_window_step ∅
      { scancode := 30, state := ElementState.Pressed,
        virtual_keycode := none }).sent =
        some { note := Note.C4, pressed := true } ∧
    run_window_step_sys false ∅ []
      { scancode := 30, state := ElementState.Pressed,
        virtual_keycode := none } =
      Except.error SendError.disconnected :=
  ⟨by decide, send_failure_aborts ∅ []
    { scancode := 30, state := ElementState.Pressed, virtual_keycode := none }
    { note := Note.C4, pressed := true } (by decide)⟩

/-- Claim C8: for every queue and every pattern of per-message write
failures, the callback processes every queued event (same length, same
messages in order), marks exactly the failed writes as logged, and still
returns Continue: one failure never blocks the rest of the batch. -/
theorem write_failure_isolated (writeOk : Nat → Bool) (q : List KeyboardMsg) :
    (handle_jack_process writeOk q).1.length = q.length ∧
    (∀ j : Nat, ((handle_jack_process writeOk q).1[j]?).map WriteOutcome.raw =
      (q[j]?).map fun m => { time := 0, bytes := midi_bytes m }) ∧
    (∀ j : Nat, ((handle_jack_process writeOk q).1[j]?).map WriteOutcome.isLogged =
      (q[j]?).map fun _ => !writeOk j) ∧
    (handle_jack_process writeOk q).2 = Control.Continue := by
  refine ⟨process_loop_length writeOk q 0, ?_, ?_, rfl⟩
  · intro j
    rw [handle_jack_process, process_loop_get]
    cases q[j]? with
    | none => rfl
    | some m =>
      simp only [Nat.zero_add, Option.map_some]
      by_cases hw : writeOk j
      · simp [hw, WriteOutcome.raw]
      · simp [hw, WriteOutcome.raw]
  · intro j
    rw [handle_jack_process, process_loop_get]
    cases q[j]? with
    | none => rfl
    | some m =>
      simp only [Nat.zero_add, Option.map_some]
      by_cases hw : writeOk j
      · simp [hw, WriteOutcome.isLogged]
      · simp [hw, WriteOutcome.isLogged]

/-- Claim C9: an observation carrying the Escape virtual keycode, in
either element state, is intercepted before the tracker: shutdown is
signalled via `ControlFlow::Exit`, the set is untouched and nothing is
sent. -/
theorem escape_intercepted (active : Finset Nat) (input : KeyboardInput)
    (h : input.virtual_keycode = some VirtualKeyCode.Escape) :
    run_window_step active input =
      { active_keys := active, control_flow := ControlFlow.Exit, sent := none } := by
  rw [run_window_step, if_pos h]

/-- Witness for C9: an Escape release over a non-empty set exits without
touching the set. -/
theorem escape_intercepted_witness :
    ({ scancode := 1, state := ElementState.Released,
       virtual_keycode := some VirtualKeyCode.Escape } :
        KeyboardInput).virtual_keycode = some VirtualKeyCode.Escape ∧
    run_window_step {30}
      { scancode := 1, state := ElementState.Released,
        virtual_keycode := some VirtualKeyCode.Escape } =
      { active_keys := {30}, control_flow := ControlFlow.Exit, sent := none } :=
  ⟨rfl, escape_intercepted {30}
    { scancode := 1, state := ElementState.Released,
      virtual_keycode := some VirtualKeyCode.Escape } rfl⟩

/-- Claim C10: the process callback returns `Control::Continue` for
every channel content and every pattern of write outcomes; it never asks
JACK to stop processing. -/
theorem callback_always_continue (writeOk : Nat → Bool) (q : List KeyboardMsg) :
    (handle_jack_process writeOk q).2 = Control.Continue :=
  rfl

end JackKeyboard
